import Mathlib

/-!
Shallow embedding of the kataphraktus web client's order-submission and
tick-advance logic (src/frontend/src/api/orderDefinitions.ts,
src/frontend/src/components/OrderBuilder.tsx,
src/frontend/src/components/TickControls.tsx), together with
spec-modelled definitions for the parts of the domain engine whose code
is not among the repository files here (the order scheduler, cancel
operation and the tick engine: only the web client, docs and docker
setup are present).

Conventions of the embedding:
- JavaScript numbers are modelled as exact rationals plus the special
  values NaN and the two infinities (`JSNum`); double rounding plays no
  role in any of the properties below.
- Form state values (`FieldVal`) are the values the React component
  actually stores: strings, booleans, numbers and undefined.
- `Number(string)` coercion is modelled by `jsParseNum` for the decimal
  string literals the number inputs produce (optional sign, digits,
  fraction, exponent, Infinity); other literal forms (hex, octal,
  binary) map to NaN and never arise from the inputs in question.
- `JSON.parse` is host-runtime code, not repository code, so the
  submission pipeline is parameterised over an arbitrary success
  predicate `jp : String → Bool` for it.
-/

namespace Kataphraktus

/-- A JavaScript number: an exact finite rational, NaN, or ±Infinity. -/
inductive JSNum where
  | fin (q : ℚ)
  | nan
  | inf
  | ninf
deriving DecidableEq, Repr

/-- `Number.isFinite`. -/
def JSNum.isFinite : JSNum → Bool
  | .fin _ => true
  | _ => false

/-- A value held in the `OrderBuilder` field state (`Record<string, unknown>`):
a string, a number, a boolean, or undefined (absent). The empty-array
placeholder the component stores for a `movement_legs` field is never read
back (the submit handler re-derives legs from its own `legs` state), so it is
represented by `undef`. -/
inductive FieldVal where
  | str (s : String)
  | num (n : JSNum)
  | bool (b : Bool)
  | undef
deriving DecidableEq, Repr

/-- JavaScript truthiness of a field value. -/
def jsTruthy : FieldVal → Bool
  | .str s => s != ""
  | .num (.fin q) => decide (q ≠ 0)
  | .num .nan => false
  | .num .inf => true
  | .num .ninf => true
  | .bool b => b
  | .undef => false

/-- The whitespace characters JS string trimming removes, restricted to the
ASCII range that can occur in the inputs in question. -/
def jsIsSpace (c : Char) : Bool :=
  c = ' ' || c = '\t' || c = '\n' || c = '\r' || c = '\x0b' || c = '\x0c'

/-- JS `String.prototype.trim()`. -/
def jsTrim (s : String) : String :=
  ⟨((s.data.dropWhile jsIsSpace).reverse.dropWhile jsIsSpace).reverse⟩

def splitCommaAux : List Char → List Char → List String
  | [], acc => [⟨acc.reverse⟩]
  | ',' :: r, acc => String.mk acc.reverse :: splitCommaAux r []
  | c :: r, acc => splitCommaAux r (c :: acc)

/-- JS `String.prototype.split(",")`: the empty string yields one empty
entry, adjacent commas yield empty entries. -/
def jsSplitComma (s : String) : List String := splitCommaAux s.data []

/-- The natural number written by a list of decimal digit characters. -/
def digitsToNat (cs : List Char) : ℕ :=
  cs.foldl (fun a c => a * 10 + (c.toNat - 48)) 0

def allDigits (cs : List Char) : Bool := cs.all Char.isDigit

/-- Consume an optional leading sign, returning the sign as ±1. -/
def splitSign : List Char → ℤ × List Char
  | '+' :: r => (1, r)
  | '-' :: r => (-1, r)
  | cs => (1, cs)

/-- Parse an unsigned decimal mantissa: digits, optionally with one decimal
point, with at least one digit overall (JS accepts forms like "1.", ".5").
The value `i.f` is the exact rational `(i * 10 ^ k + f) / 10 ^ k`. -/
def parseMantissa (cs : List Char) : Option ℚ :=
  let intPart := cs.takeWhile (· ≠ '.')
  match cs.dropWhile (· ≠ '.') with
  | [] =>
    if !intPart.isEmpty && allDigits intPart then some (digitsToNat intPart) else none
  | _ :: frac =>
    if allDigits intPart && allDigits frac && (!intPart.isEmpty || !frac.isEmpty) then
      some (mkRat (digitsToNat intPart * 10 ^ frac.length + digitsToNat frac)
        (10 ^ frac.length))
    else none

/-- Parse a signed decimal exponent part (after the `e`/`E`). -/
def parseExp (cs : List Char) : Option ℤ :=
  let (sg, ds) := splitSign cs
  if !ds.isEmpty && allDigits ds then some (sg * digitsToNat ds) else none

/-- Scale a mantissa by `10 ^ e` exactly. -/
def applyExp (m : ℚ) (e : ℤ) : ℚ :=
  if 0 ≤ e then mkRat (m.num * ((10 ^ e.toNat : ℕ) : ℤ)) m.den
  else mkRat m.num (m.den * 10 ^ (-e).toNat)

/-- Parse an unsigned decimal numeric literal with optional exponent. -/
def parseDecCore (cs : List Char) : Option ℚ :=
  let mant := cs.takeWhile (fun c => c ≠ 'e' && c ≠ 'E')
  match cs.dropWhile (fun c => c ≠ 'e' && c ≠ 'E') with
  | [] => parseMantissa mant
  | _ :: ecs => do
    let m ← parseMantissa mant
    let e ← parseExp ecs
    some (applyExp m e)

/-- Parse a signed decimal numeric literal. -/
def parseSigned (cs : List Char) : Option ℚ :=
  let (sg, r) := splitSign cs
  (parseDecCore r).map (fun q => if sg < 0 then -q else q)

/-- JS `Number()` applied to a string: whitespace-trimmed; empty means 0;
`Infinity` forms; otherwise a signed decimal literal, with everything else
(including the hex/octal/binary forms no number input produces) giving NaN. -/
def jsParseNum (s : String) : JSNum :=
  let t := jsTrim s
  if t = "" then .fin 0
  else if t = "Infinity" || t = "+Infinity" then .inf
  else if t = "-Infinity" then .ninf
  else
    match parseSigned t.toList with
    | some q => .fin q
    | none => .nan

/-- JS `Number()` coercion of a field value. -/
def jsToNumber : FieldVal → JSNum
  | .str s => jsParseNum s
  | .num n => n
  | .bool b => .fin (if b then 1 else 0)
  | .undef => .nan

/-- JS `String()` conversion, used only by the JSON field branch; in the
component a json field's state is initialised to the empty string and only
ever updated from a textarea, so only the string case is exercised. -/
def jsToString : FieldVal → String
  | .str s => s
  | .bool b => if b then "true" else "false"
  | .undef => "undefined"
  | .num (.fin q) => if q.den = 1 then toString q.num else toString q
  | .num .nan => "NaN"
  | .num .inf => "Infinity"
  | .num .ninf => "-Infinity"

/-! ### Order definitions (src/frontend/src/api/orderDefinitions.ts) -/

/-- `OrderFieldType` from orderDefinitions.ts. -/
inductive OrderFieldType where
  | text
  | number
  | textarea
  | checkbox
  | select
  | list
  | movement_legs
  | json
deriving DecidableEq, Repr

/-- `OrderFieldDefinition` from orderDefinitions.ts. The presentation-only
`helper` and `placeholder` strings are omitted; no logic reads them. Options
are (value, label) pairs. -/
structure OrderFieldDefinition where
  name : String
  label : String
  type : OrderFieldType
  required : Bool := false
  options : List (String × String) := []
  listValueType : Option String := none
  defaultValue : Option FieldVal := none
deriving DecidableEq, Repr

/-- `OrderDefinition` from orderDefinitions.ts. The presentation-only
`advancedNote` string is omitted; no logic reads it. -/
structure OrderDefinition where
  label : String
  requiresArmy : Bool
  description : String
  fields : List OrderFieldDefinition
deriving DecidableEq, Repr

def moveDef : OrderDefinition :=
  { label := "March", requiresArmy := true,
    description := "Plan a series of legs to reposition an army.",
    fields := [
      { name := "movement_type", label := "Movement Style", type := .select,
        options := [("standard", "Standard"), ("forced", "Forced March"), ("night", "Night March")],
        defaultValue := some (.str "standard") },
      { name := "weather_modifier", label := "Weather Modifier", type := .number,
        defaultValue := some (.num (.fin 0)) },
      { name := "legs", label := "Legs", type := .movement_legs }] }

def restDef : OrderDefinition :=
  { label := "Rest", requiresArmy := true,
    description := "Recover morale and readiness by remaining in place.",
    fields := [
      { name := "duration_days", label := "Days of Rest", type := .number,
        defaultValue := some (.num (.fin 1)) }] }

def forageDef : OrderDefinition :=
  { label := "Forage", requiresArmy := true,
    description := "Gather supplies from neighbouring hexes.",
    fields := [
      { name := "hex_ids", label := "Hex IDs", type := .list, listValueType := some "number" }] }

def torchDef : OrderDefinition :=
  { label := "Torch", requiresArmy := true,
    description := "Burn and devastate selected hexes.",
    fields := [
      { name := "hex_ids", label := "Hex IDs", type := .list, listValueType := some "number" }] }

def supplyTransferDef : OrderDefinition :=
  { label := "Transfer Supplies", requiresArmy := true,
    description := "Share rations with an allied army.",
    fields := [
      { name := "target_army_id", label := "Recipient Army ID", type := .number, required := true },
      { name := "amount", label := "Amount of Supplies", type := .number, required := true }] }

def besiegeDef : OrderDefinition :=
  { label := "Lay Siege", requiresArmy := true,
    description := "Begin or reinforce a siege on a stronghold.",
    fields := [
      { name := "stronghold_id", label := "Stronghold ID", type := .number, required := true },
      { name := "siege_engines", label := "Siege Engines Committed", type := .number }] }

def assaultDef : OrderDefinition :=
  { label := "Assault", requiresArmy := true,
    description := "Resolve a full assault on a besieged stronghold.",
    fields := [
      { name := "stronghold_id", label := "Stronghold ID", type := .number, required := true },
      { name := "pillage", label := "Pillage on success", type := .checkbox },
      { name := "attacker_modifier", label := "Attacker Modifier", type := .number,
        defaultValue := some (.num (.fin 0)) },
      { name := "defender_modifier", label := "Defender Modifier", type := .number,
        defaultValue := some (.num (.fin 0)) },
      { name := "attacker_fixed_roll", label := "Attacker Fixed Roll", type := .number },
      { name := "defender_fixed_roll", label := "Defender Fixed Roll", type := .number }] }

def embarkDef : OrderDefinition :=
  { label := "Embark", requiresArmy := true,
    description := "Load troops onto a transport fleet.",
    fields := [
      { name := "ship_id", label := "Ship ID", type := .number, required := true }] }

def disembarkDef : OrderDefinition :=
  { label := "Disembark", requiresArmy := true,
    description := "Unload troops from a transport fleet.",
    fields := [
      { name := "ship_id", label := "Ship ID", type := .number, required := true }] }

def navalMoveDef : OrderDefinition :=
  { label := "Naval Move", requiresArmy := false,
    description := "Direct a fleet along a plotted course.",
    fields := [
      { name := "ship_id", label := "Ship ID", type := .number, required := true },
      { name := "route", label := "Route Hex IDs", type := .list, listValueType := some "number" }] }

def sendMessageDef : OrderDefinition :=
  { label := "Dispatch Message", requiresArmy := false,
    description := "Send a courier between commanders.",
    fields := [
      { name := "recipient_id", label := "Recipient Commander ID", type := .number, required := true },
      { name := "content", label := "Message", type := .textarea, required := true },
      { name := "territory_type", label := "Territory", type := .select,
        options := [("friendly", "Friendly"), ("neutral", "Neutral"), ("hostile", "Hostile")],
        defaultValue := some (.str "friendly") }] }

def launchOperationDef : OrderDefinition :=
  { label := "Launch Operation", requiresArmy := false,
    description := "Resolve intelligence, sabotage, or assassination missions.",
    fields := [
      { name := "operation_type", label := "Operation Type", type := .select,
        options := [("intelligence", "Intelligence"), ("sabotage", "Sabotage"),
          ("assassination", "Assassination")],
        defaultValue := some (.str "intelligence") },
      { name := "target_descriptor", label := "Target Descriptor (JSON)", type := .json },
      { name := "difficulty_modifier", label := "Difficulty Modifier", type := .number,
        defaultValue := some (.num (.fin 0)) },
      { name := "loot_cost", label := "Loot Cost", type := .number },
      { name := "territory_type", label := "Territory", type := .select,
        options := [("friendly", "Friendly"), ("neutral", "Neutral"), ("hostile", "Hostile")],
        defaultValue := some (.str "friendly") },
      { name := "complexity", label := "Operation Complexity", type := .select,
        options := [("standard", "Standard"), ("complex", "Complex"), ("audacious", "Audacious")],
        defaultValue := some (.str "standard") }] }

def raiseArmyDef : OrderDefinition :=
  { label := "Raise Army", requiresArmy := false,
    description := "Launch or complete a recruitment project from a stronghold.",
    fields := [
      { name := "stronghold_id", label := "Stronghold ID", type := .number, required := true },
      { name := "new_commander_id", label := "Commander ID", type := .number, required := true },
      { name := "infantry_unit_type_id", label := "Infantry Unit Type ID", type := .number,
        required := true },
      { name := "cavalry_unit_type_id", label := "Cavalry Unit Type ID", type := .number },
      { name := "rally_hex_id", label := "Rally Hex ID", type := .number, required := true },
      { name := "army_name", label := "Army Name", type := .text }] }

def harryDef : OrderDefinition :=
  { label := "Harry", requiresArmy := true,
    description := "Conduct raiding actions with selected detachments.",
    fields := [
      { name := "detachment_ids", label := "Detachment IDs", type := .list,
        listValueType := some "number" },
      { name := "target_army_id", label := "Target Army ID", type := .number, required := true },
      { name := "objective", label := "Objective", type := .select,
        options := [("kill", "Kill"), ("steal", "Steal"), ("burn", "Burn")],
        defaultValue := some (.str "kill") }] }

/-- `ORDER_DEFINITIONS` from orderDefinitions.ts, as an association list in
the object's key order. -/
def ORDER_DEFINITIONS : List (String × OrderDefinition) :=
  [("move", moveDef), ("rest", restDef), ("forage", forageDef), ("torch", torchDef),
   ("supply_transfer", supplyTransferDef), ("besiege", besiegeDef), ("assault", assaultDef),
   ("embark", embarkDef), ("disembark", disembarkDef), ("naval_move", navalMoveDef),
   ("send_message", sendMessageDef), ("launch_operation", launchOperationDef),
   ("raise_army", raiseArmyDef), ("harry", harryDef)]

/-- `ORDER_TYPES = Object.keys(ORDER_DEFINITIONS)`. -/
def ORDER_TYPES : List String := ORDER_DEFINITIONS.map Prod.fst

/-! ### OrderBuilder submission pipeline (src/frontend/src/components/OrderBuilder.tsx) -/

/-- `MovementLegForm` from OrderBuilder.tsx: one row of the legs editor; the
two hex fields and the distance are number-input strings, the flags
checkboxes. -/
structure MovementLegForm where
  to_hex_id : String
  distance_miles : String
  on_road : Bool
  has_river_ford : Bool
  is_night : Bool
  has_fork : Bool
  alternate_hex_id : String
deriving DecidableEq, Repr

/-- `defaultLeg()` from OrderBuilder.tsx. -/
def defaultLeg : MovementLegForm :=
  { to_hex_id := "", distance_miles := "", on_road := true, has_river_ford := false,
    is_night := false, has_fork := false, alternate_hex_id := "" }

/-- The shape of one prepared leg as built in `handleSubmit`: numeric
destination and distance, the four boolean flags, and an alternate hex that
is a number when the form string was non-empty and absent otherwise. -/
structure PreparedLeg where
  to_hex_id : JSNum
  distance_miles : JSNum
  on_road : Bool
  has_river_ford : Bool
  is_night : Bool
  has_fork : Bool
  alternate_hex_id : Option JSNum
deriving DecidableEq, Repr

/-- The filter of `handleSubmit`: a leg row counts once destination and
distance are both non-blank after trimming (JS string truthiness of the
trimmed values). -/
def legReady (l : MovementLegForm) : Bool :=
  jsTrim l.to_hex_id != "" && jsTrim l.distance_miles != ""

/-- The map of `handleSubmit` over ready leg rows. The `alternate_hex_id`
guard is the truthiness of the raw (untrimmed) string, as in the source. -/
def prepareLeg (l : MovementLegForm) : PreparedLeg :=
  { to_hex_id := jsParseNum l.to_hex_id
    distance_miles := jsParseNum l.distance_miles
    on_road := l.on_road
    has_river_ford := l.has_river_ford
    is_night := l.is_night
    has_fork := l.has_fork
    alternate_hex_id :=
      if l.alternate_hex_id != "" then some (jsParseNum l.alternate_hex_id) else none }

/-- `preparedLegs` of `handleSubmit`: filter the ready rows, then map them. -/
def preparedLegs (legs : List MovementLegForm) : List PreparedLeg :=
  (legs.filter legReady).map prepareLeg

/-- A value stored in the `parameters` record of an order-creation payload.
The constructor tells which branch of the field loop produced it; `json ""`
stands for the empty object the source stores for a blank JSON field. -/
inductive ParamValue where
  | num (n : JSNum)
  | str (s : String)
  | bool (b : Bool)
  | legs (l : List PreparedLeg)
  | numList (l : List JSNum)
  | strList (l : List String)
  | json (raw : String)
deriving DecidableEq, Repr

/-- One iteration of the `for (const field of orderDefinition.fields)` loop
of `handleSubmit`, acting on the field state value `v = fieldState[field.name]`.
`Except.error` is a `setError`-and-return; `ok none` leaves the field out of
`parameters`; `ok (some p)` adds the pair. `jp` is the JSON.parse success
predicate. -/
def processFieldVal (jp : String → Bool) (orderType : String)
    (legs : List MovementLegForm) (f : OrderFieldDefinition) (v : FieldVal) :
    Except String (Option (String × ParamValue)) :=
  match f.type with
  | .movement_legs =>
    let prepared := preparedLegs legs
    if orderType == "move" && prepared.isEmpty then
      .error "Provide at least one movement leg."
    else .ok (some (f.name, .legs prepared))
  | .checkbox => .ok (some (f.name, .bool (jsTruthy v)))
  | .list =>
    let raw := match v with | .str s => s | _ => ""
    let entries := ((jsSplitComma raw).map jsTrim).filter (fun e => e != "")
    if f.listValueType == some "number" then
      .ok (some (f.name, .numList (entries.map jsParseNum)))
    else .ok (some (f.name, .strList entries))
  | .json =>
    if !(jsTruthy v) then .ok (some (f.name, .json ""))
    else if jp (jsToString v) then .ok (some (f.name, .json (jsToString v)))
    else .error ("Invalid JSON for " ++ f.label)
  | .number =>
    match v with
    | .str "" => .ok none
    | .undef => .ok none
    | v' =>
      match jsToNumber v' with
      | .fin q => .ok (some (f.name, .num (.fin q)))
      | _ => .error (f.label ++ " must be a number.")
  | _ =>
    -- select, text and textarea share the final branch of the source loop
    match v with
    | .str s =>
      if jsTrim s == "" && f.required then .error (f.label ++ " is required.")
      else if s != "" then .ok (some (f.name, .str s))
      else .ok none
    | .undef => .ok none
    | .num n => .ok (some (f.name, .num n))
    | .bool b => .ok (some (f.name, .bool b))

/-- The loop body applied at a field, reading its state value. -/
def processField (jp : String → Bool) (orderType : String)
    (legs : List MovementLegForm) (st : String → FieldVal)
    (f : OrderFieldDefinition) : Except String (Option (String × ParamValue)) :=
  processFieldVal jp orderType legs f (st f.name)

/-- The whole field loop: first error aborts, contributed pairs keep field
order. -/
def processFields (jp : String → Bool) (orderType : String)
    (legs : List MovementLegForm) (st : String → FieldVal) :
    List OrderFieldDefinition → Except String (List (String × ParamValue))
  | [] => .ok []
  | f :: fs =>
    match processField jp orderType legs st f with
    | .error e => .error e
    | .ok none => processFields jp orderType legs st fs
    | .ok (some p) =>
      match processFields jp orderType legs st fs with
      | .error e => .error e
      | .ok ps => .ok (p :: ps)

/-- JS falsiness of the nullable numeric ids held in component state
(`!selectedArmyId`, `!commanderId`): null or zero. -/
def jsOptFalsy : Option ℤ → Bool
  | none => true
  | some n => n == 0

/-- `OrderCreateRequest` from types.ts, with the two ids kept as nullable so
that the non-null guarantees are theorems rather than typing artefacts. -/
structure OrderCreateRequest where
  army_id : Option ℤ
  commander_id : Option ℤ
  order_type : String
  parameters : List (String × ParamValue)
  execute_day : Option JSNum
  execute_part : Option String
  priority : JSNum
deriving DecidableEq, Repr

/-- The `executeDayValue` local of `handleSubmit`:
`executeDay.trim() ? Number(executeDay) : null`. -/
def executeDayValue (executeDay : String) : Option JSNum :=
  if jsTrim executeDay != "" then some (jsParseNum executeDay) else none

/-- `handleSubmit` from OrderBuilder.tsx: `ok` is the payload passed to
`createOrder.mutate` (the order-creation request); `error` is a
`setError`-and-return, after which no request is made. Looking up an unknown
order type would dereference `undefined` and throw, which likewise makes no
request. -/
def handleSubmit (jp : String → Bool) (orderType : String)
    (st : String → FieldVal) (legs : List MovementLegForm)
    (selectedArmyId commanderId : Option ℤ)
    (executeDay executePart : String) (priority : JSNum) :
    Except String OrderCreateRequest :=
  match ORDER_DEFINITIONS.lookup orderType with
  | none => .error "TypeError"
  | some d =>
    if d.requiresArmy && jsOptFalsy selectedArmyId then
      .error "Select an army to issue this order."
    else if jsOptFalsy commanderId then
      .error "Select a commander to authorise the order."
    else
      match processFields jp orderType legs st d.fields with
      | .error e => .error e
      | .ok ps =>
        if executeDayValue executeDay = some JSNum.nan then
          .error "Execution day must be numeric."
        else .ok {
          -- the source's `requiresArmy ? selectedArmyId : selectedArmyId ?? null`
          army_id := if d.requiresArmy then selectedArmyId else selectedArmyId,
          commander_id := commanderId,
          order_type := orderType,
          parameters := ps,
          execute_day := executeDayValue executeDay,
          execute_part := if executePart != "" then some executePart else none,
          priority := priority }

/-! ### Field state initialisation and reachable updates (OrderBuilder.tsx) -/

/-- Functional update of the field state record. -/
def updateState (st : String → FieldVal) (n : String) (v : FieldVal) :
    String → FieldVal :=
  fun m => if m == n then v else st m

/-- `resetFields` from OrderBuilder.tsx: the base state built from each field
definition (checkbox from `Boolean(defaultValue)`, number from
`defaultValue ?? ""`, select from `defaultValue ?? options[0] ?? ""`,
movement_legs an empty placeholder never read back, everything else
`defaultValue ?? ""`). -/
def resetFields (d : OrderDefinition) : String → FieldVal :=
  d.fields.foldl (fun st f =>
    match f.type with
    | .checkbox => updateState st f.name (.bool (jsTruthy (f.defaultValue.getD .undef)))
    | .movement_legs => updateState st f.name .undef
    | .number => updateState st f.name (f.defaultValue.getD (.str ""))
    | .select =>
      updateState st f.name
        (f.defaultValue.getD (.str ((f.options.head?.map Prod.fst).getD "")))
    | _ => updateState st f.name (f.defaultValue.getD (.str "")))
    (fun _ => .undef)

/-- One `updateField` call as the rendered controls can produce it: a select
only ever fires one of its option values; checkboxes fire booleans; text,
textarea, number, list and json inputs fire strings. Events naming no field
of the definition, or carrying a value the control cannot produce, leave the
state unchanged. -/
def applyEvent (d : OrderDefinition) (st : String → FieldVal)
    (e : String × FieldVal) : String → FieldVal :=
  match d.fields.find? (fun f => f.name == e.1) with
  | none => st
  | some f =>
    match f.type, e.2 with
    | .select, .str v =>
      if (f.options.map Prod.fst).contains v then updateState st f.name (.str v) else st
    | .checkbox, .bool b => updateState st f.name (.bool b)
    | .number, .str s => updateState st f.name (.str s)
    | .text, .str s => updateState st f.name (.str s)
    | .textarea, .str s => updateState st f.name (.str s)
    | .list, .str s => updateState st f.name (.str s)
    | .json, .str s => updateState st f.name (.str s)
    | _, _ => st

/-- The field states reachable in the component for a given order type: the
reset state followed by any sequence of control events. -/
def reachState (d : OrderDefinition) (events : List (String × FieldVal)) :
    String → FieldVal :=
  events.foldl (applyEvent d) (resetFields d)

/-! ### TickControls (src/frontend/src/components/TickControls.tsx) -/

/-- `handleAdvance` from TickControls.tsx: `Number(days)` must be finite and
strictly positive or no request is made; otherwise `advanceTick.mutate(count)`
fires with the parsed value. -/
def handleAdvance (days : String) : Option JSNum :=
  match jsParseNum days with
  | .fin q => if q ≤ 0 then none else some (.fin q)
  | _ => none

/-! ### OrderList cancel gating (src/frontend/src/components/TickControls.tsx,
second component of the file) -/

/-- The condition under which `OrderList` renders the Cancel button for an
order row. -/
def showCancelButton (status : String) : Bool :=
  status == "pending" || status == "executing"

/-! ### Spec-modelled domain engine

The domain rules engine (order scheduler, tick engine, resolvers) is not
among the repository files here: only the web client, documentation and
docker setup are. The definitions below are modelled from the spec's words
and are marked so in their doc comments. -/

/-- The order status machine of the spec:
pending → executing → one of completed, failed, cancelled. -/
inductive OrderStatus where
  | pending
  | executing
  | completed
  | failed
  | cancelled
deriving DecidableEq, Repr

/-- The spec's error taxonomy. -/
inductive DomainError where
  | validation
  | authorization
  | notFound
  | invalidState
  | invalidRoute
  | conflict
deriving DecidableEq, Repr

/-- A status is terminal once non-pending-non-executing. -/
def OrderStatus.isTerminal : OrderStatus → Bool
  | .completed => true
  | .failed => true
  | .cancelled => true
  | _ => false

/-- Modelled from the spec: the order scheduler's cancel operation.
The scheduler's code is missing from the repository files, so this follows
the spec sentence: cancel transitions pending and executing orders to
cancelled and fails with InvalidStateError if the order is already
terminal. -/
def cancelOrder : OrderStatus → Except DomainError OrderStatus
  | .pending => .ok .cancelled
  | .executing => .ok .cancelled
  | _ => .error .invalidState

/-- Modelled from the spec: the scheduler's order_type validation. The
scheduler's code is missing from the repository files, so this follows the
spec sentence that unrecognized order_type values fail with
ValidationError, against the client's closed `ORDER_TYPES` list. -/
def validateOrderType (t : String) : Except DomainError Unit :=
  if t ∈ ORDER_TYPES then .ok () else .error .validation

/-- Modelled from the spec: the Randomness and Audit Service's append-only
record of one roll: the tick it happened in, the subsystem, the seed state
the roll consumed, the modifier, the optional fixed override and the
resulting output. -/
structure AuditEntry where
  tick : ℕ
  subsystem : String
  seedBefore : ℕ
  modifier : ℤ
  fixedOverride : Option ℕ
  rollOutput : ℕ
deriving DecidableEq, Repr

/-- A 64-bit linear congruential step: the deterministic generator behind
the seeded roll source. -/
def lcgNext (s : ℕ) : ℕ := (6364136223846793005 * s + 1442695040888963407) % 2 ^ 64

/-- Modelled from the spec: the engine's running state during an advance -
the campaign snapshot fields the model tracks, the generator seed, a running
roll counter (the key the per-call fixed-roll overrides are addressed by)
and the audit log built so far. -/
structure ArmyState where
  id : ℕ
  hexId : ℕ
  suppliesCurrent : ℕ
  suppliesCapacity : ℕ
  morale : ℕ
deriving DecidableEq, Repr

structure SiegeState where
  strongholdId : ℕ
  threshold : ℕ
  besiegerStrength : ℕ
deriving DecidableEq, Repr

inductive DayPart where
  | morning
  | midday
  | evening
  | night
deriving DecidableEq, Repr

def DayPart.next : DayPart → DayPart × Bool
  | .morning => (.midday, false)
  | .midday => (.evening, false)
  | .evening => (.night, false)
  | .night => (.morning, true)

structure CampaignSnapshot where
  currentDay : ℕ
  currentPart : DayPart
  armies : List ArmyState
  sieges : List SiegeState
deriving DecidableEq, Repr

structure EngineState where
  snap : CampaignSnapshot
  seed : ℕ
  rollCount : ℕ
  audit : List AuditEntry

/-- Modelled from the spec: one roll of the seeded deterministic roll
source, with per-call fixed override and an appended audit entry. The
override set `ov` addresses rolls by their position in the run. -/
def doRoll (ov : ℕ → Option ℕ) (subsystem : String) (modifier : ℤ)
    (tick : ℕ) (st : EngineState) : ℕ × EngineState :=
  let s' := lcgNext st.seed
  let value :=
    match ov st.rollCount with
    | some v => v
    | none => s' % 20 + 1
  (value,
    { st with
      seed := s'
      rollCount := st.rollCount + 1
      audit := st.audit ++
        [{ tick := tick, subsystem := subsystem, seedBefore := st.seed,
           modifier := modifier, fixedOverride := ov st.rollCount,
           rollOutput := value }] })

/-- Modelled from the spec: one day-part transition of the tick engine -
supply drain per army (clamped into capacity), siege threshold advancement
through one audited roll per active siege, then the part/day step. -/
def tickPart (ov : ℕ → Option ℕ) (st : EngineState) : EngineState :=
  let tick := st.snap.currentDay * 4 +
    (match st.snap.currentPart with
     | .morning => 0 | .midday => 1 | .evening => 2 | .night => 3)
  let armies := st.snap.armies.map (fun a =>
    { a with suppliesCurrent := min (a.suppliesCurrent - 1) a.suppliesCapacity })
  let stepSiege := fun (acc : List SiegeState × EngineState) (s : SiegeState) =>
    let (v, st') := doRoll ov "siege" (s.besiegerStrength : ℤ) tick acc.2
    (acc.1 ++ [{ s with threshold := s.threshold - (v + s.besiegerStrength) / 8 }], st')
  let (sieges, st1) := st.snap.sieges.foldl stepSiege ([], st)
  let (part, rolled) := st.snap.currentPart.next
  { st1 with
    snap :=
      { currentDay := st.snap.currentDay + (if rolled then 1 else 0)
        currentPart := part
        armies := armies
        sieges := sieges } }

/-- Modelled from the spec: `advance(campaign, days) -> CampaignSnapshot`
plus the audit log - `4 * days` part transitions from the given snapshot,
seed and fixed-roll override set. -/
def advance (snap : CampaignSnapshot) (days : ℕ) (seed : ℕ)
    (ov : ℕ → Option ℕ) : CampaignSnapshot × List AuditEntry :=
  let final := Nat.rec (motive := fun _ => EngineState)
    { snap := snap, seed := seed, rollCount := 0, audit := [] }
    (fun _ st => tickPart ov st) (4 * days)
  (final.snap, final.audit)

/-! ### Invariant predicates over field states -/

/-- In the running component no field state ever holds a non-finite number:
defaults are finite and control events only fire strings and booleans. -/
def FiniteNumStates (st : String → FieldVal) : Prop :=
  ∀ nm m, st nm = .num m → ∃ q : ℚ, m = .fin q

/-- All default values of a definition that are numbers are finite. -/
def defaultsGuard (d : OrderDefinition) : Bool :=
  d.fields.all (fun f =>
    match f.defaultValue with
    | some (.num (.fin _)) => true
    | some (.num _) => false
    | _ => true)

/-- The state of the territory_type field is one of the three territory
option values. -/
def territoryOk (st : String → FieldVal) : Prop :=
  ∃ s, st "territory_type" = .str s ∧
    (s = "friendly" ∨ s = "neutral" ∨ s = "hostile")

/-- Any field named territory_type is a select whose options are drawn from
the three territory values. -/
def territoryGuard (d : OrderDefinition) : Bool :=
  d.fields.all (fun f =>
    f.name != "territory_type" ||
      (f.type == OrderFieldType.select &&
        f.options.all (fun o =>
          o.1 == "friendly" || o.1 == "neutral" || o.1 == "hostile")))

/-! ### Concrete witness data -/

/-- A one-row legs editor state used by the concrete witnesses. -/
def witnessLegs : List MovementLegForm :=
  [{ to_hex_id := "12", distance_miles := "8", on_road := true,
     has_river_ford := false, is_night := false, has_fork := false,
     alternate_hex_id := "" }]

/-- The single prepared leg of `witnessLegs`. -/
def witnessPreparedLeg : PreparedLeg :=
  { to_hex_id := .fin 12, distance_miles := .fin 8, on_road := true,
    has_river_ford := false, is_night := false, has_fork := false,
    alternate_hex_id := none }

/-- The payload the component sends for a move order issued from the reset
field state with `witnessLegs`, army 1 and commander 2. -/
def witnessMovePayload : OrderCreateRequest :=
  { army_id := some 1, commander_id := some 2, order_type := "move",
    parameters := [("movement_type", .str "standard"),
      ("weather_modifier", .num (.fin 0)),
      ("legs", .legs [witnessPreparedLeg])],
    execute_day := none, execute_part := none, priority := .fin 0 }

/-! ### Helper lemmas about the submission pipeline -/

/-- Every pair the field loop contributes is keyed by the field's name. -/
theorem processFieldVal_name {jp : String → Bool} {ot : String}
    {legs : List MovementLegForm} {f : OrderFieldDefinition} {v : FieldVal}
    {n : String} {pv : ParamValue}
    (h : processFieldVal jp ot legs f v = .ok (some (n, pv))) : n = f.name := by
  unfold processFieldVal at h
  dsimp only at h
  split at h <;> (repeat' split at h) <;> simp_all

/-- If the field loop succeeds, each field's iteration succeeded, and its
contribution (when any) is among the produced parameters. -/
theorem processFields_ok_of_mem {jp : String → Bool} {ot : String}
    {legs : List MovementLegForm} {st : String → FieldVal} :
    ∀ {fs : List OrderFieldDefinition} {ps : List (String × ParamValue)},
      processFields jp ot legs st fs = .ok ps → ∀ f ∈ fs,
        ∃ r, processField jp ot legs st f = .ok r ∧ ∀ p, r = some p → p ∈ ps := by
  intro fs
  induction fs with
  | nil => intro ps _ f hf; cases hf
  | cons a fs ih =>
    intro ps h f hf
    rw [processFields] at h
    rcases List.mem_cons.mp hf with rfl | hf'
    · cases ha : processField jp ot legs st f with
      | error e => rw [ha] at h; cases h
      | ok r =>
        refine ⟨r, rfl, ?_⟩
        intro p hp
        subst hp
        rw [ha] at h
        cases hrest : processFields jp ot legs st fs with
        | error e => rw [hrest] at h; cases h
        | ok ps' => rw [hrest] at h; cases h; exact List.mem_cons_self ..
    · cases ha : processField jp ot legs st a with
      | error e => rw [ha] at h; cases h
      | ok r =>
        rw [ha] at h
        cases r with
        | none => exact ih h f hf'
        | some p0 =>
          cases hrest : processFields jp ot legs st fs with
          | error e => rw [hrest] at h; cases h
          | ok ps' =>
            rw [hrest] at h
            cases h
            obtain ⟨r', hr', hmem⟩ := ih hrest f hf'
            exact ⟨r', hr', fun p hp => List.mem_cons_of_mem _ (hmem p hp)⟩

/-- Every produced parameter comes from some field's iteration. -/
theorem processFields_mem {jp : String → Bool} {ot : String}
    {legs : List MovementLegForm} {st : String → FieldVal} :
    ∀ {fs : List OrderFieldDefinition} {ps : List (String × ParamValue)},
      processFields jp ot legs st fs = .ok ps → ∀ p ∈ ps,
        ∃ f ∈ fs, processField jp ot legs st f = .ok (some p) := by
  intro fs
  induction fs with
  | nil =>
    intro ps h p hp
    rw [processFields] at h
    cases h
    cases hp
  | cons a fs ih =>
    intro ps h p hp
    rw [processFields] at h
    cases ha : processField jp ot legs st a with
    | error e => rw [ha] at h; cases h
    | ok r =>
      rw [ha] at h
      cases r with
      | none =>
        obtain ⟨f, hf, hpf⟩ := ih h p hp
        exact ⟨f, List.mem_cons_of_mem _ hf, hpf⟩
      | some p0 =>
        cases hrest : processFields jp ot legs st fs with
        | error e => rw [hrest] at h; cases h
        | ok ps' =>
          rw [hrest] at h
          cases h
          rcases List.mem_cons.mp hp with rfl | hp'
          · exact ⟨a, List.mem_cons_self .., ha⟩
          · obtain ⟨f, hf, hpf⟩ := ih hrest p hp'
            exact ⟨f, List.mem_cons_of_mem _ hf, hpf⟩

/-- Inversion of a successful submission: the order type resolved in
`ORDER_DEFINITIONS`, both guards passed, the field loop succeeded, and the
payload is assembled from those pieces. -/
theorem handleSubmit_ok_inv {jp : String → Bool} {ot : String}
    {st : String → FieldVal} {legs : List MovementLegForm}
    {a c : Option ℤ} {ed ep : String} {pr : JSNum} {p : OrderCreateRequest}
    (h : handleSubmit jp ot st legs a c ed ep pr = .ok p) :
    ∃ d ps, ORDER_DEFINITIONS.lookup ot = some d ∧
      (d.requiresArmy && jsOptFalsy a) = false ∧
      jsOptFalsy c = false ∧
      processFields jp ot legs st d.fields = .ok ps ∧
      p.order_type = ot ∧ p.parameters = ps ∧ p.commander_id = c ∧ p.army_id = a := by
  unfold handleSubmit at h
  split at h
  · cases h
  next d hl =>
    by_cases h1 : (d.requiresArmy && jsOptFalsy a) = true
    · rw [if_pos h1] at h; cases h
    · rw [if_neg h1] at h
      rw [Bool.not_eq_true] at h1
      by_cases h2 : jsOptFalsy c = true
      · rw [if_pos h2] at h; cases h
      · rw [if_neg h2] at h
        rw [Bool.not_eq_true] at h2
        split at h
        · cases h
        next ps hps =>
          by_cases h3 : executeDayValue ed = some JSNum.nan
          · rw [if_pos h3] at h; cases h
          · rw [if_neg h3] at h
            cases h
            exact ⟨d, ps, hl, h1, h2, hps, rfl, rfl, rfl, ite_self a⟩

theorem updateState_self {st : String → FieldVal} {n : String} {v : FieldVal} :
    updateState st n v n = v := by
  unfold updateState
  rw [if_pos (by simp)]

theorem updateState_other {st : String → FieldVal} {n : String} {v : FieldVal}
    {m : String} (h : m ≠ n) : updateState st n v m = st m := by
  unfold updateState
  rw [if_neg (by simp [h])]

/-- The movement_legs iteration never skips: when it succeeds it contributes
the prepared legs under the field's name, and for a move order success forces
at least one prepared leg. -/
theorem processFieldVal_movement_legs {jp : String → Bool} {ot : String}
    {legs : List MovementLegForm} {f : OrderFieldDefinition} {v : FieldVal}
    {r : Option (String × ParamValue)} (hf : f.type = .movement_legs)
    (h : processFieldVal jp ot legs f v = .ok r) :
    r = some (f.name, .legs (preparedLegs legs)) ∧
      (ot = "move" → preparedLegs legs ≠ []) := by
  unfold processFieldVal at h
  rw [hf] at h
  dsimp only at h
  split at h
  · cases h
  next hc =>
    cases h
    refine ⟨rfl, fun hot hnil => hc ?_⟩
    subst hot
    simp [hnil]

/-- A blank or absent numeric input is skipped, leaving the field out of the
parameters mapping. -/
theorem processFieldVal_number_blank {jp : String → Bool} {ot : String}
    {legs : List MovementLegForm} {f : OrderFieldDefinition}
    (hf : f.type = .number) :
    processFieldVal jp ot legs f (.str "") = .ok none ∧
    processFieldVal jp ot legs f .undef = .ok none := by
  unfold processFieldVal
  rw [hf]
  exact ⟨rfl, rfl⟩

/-- A number-typed field only ever contributes a finite number. -/
theorem processFieldVal_number_fin {jp : String → Bool} {ot : String}
    {legs : List MovementLegForm} {f : OrderFieldDefinition} {v : FieldVal}
    {n : String} {pv : ParamValue} (hf : f.type = .number)
    (h : processFieldVal jp ot legs f v = .ok (some (n, pv))) :
    ∃ q : ℚ, pv = .num (.fin q) := by
  unfold processFieldVal at h
  rw [hf] at h
  dsimp only at h
  split at h <;> (repeat' split at h) <;> simp_all <;> exact ⟨_, h.2.symm⟩

/-- A non-finite `Number()` coercion of a present value makes the number
branch abort with the field's error message. -/
theorem processFieldVal_number_bad {jp : String → Bool} {ot : String}
    {legs : List MovementLegForm} {f : OrderFieldDefinition} {v : FieldVal}
    (hf : f.type = .number) (hv : v ≠ .str "" ∧ v ≠ .undef)
    (hn : (jsToNumber v).isFinite = false) :
    processFieldVal jp ot legs f v = .error (f.label ++ " must be a number.") := by
  unfold processFieldVal
  rw [hf]
  dsimp only
  split
  · simp_all
  · simp_all
  · split <;> simp_all [JSNum.isFinite]

/-- A parameter holding a raw number was produced either by the number
branch (hence finite) or by storing the field state value itself. -/
theorem processFieldVal_num_inv {jp : String → Bool} {ot : String}
    {legs : List MovementLegForm} {f : OrderFieldDefinition} {v : FieldVal}
    {n : String} {m : JSNum}
    (h : processFieldVal jp ot legs f v = .ok (some (n, .num m))) :
    (∃ q : ℚ, m = .fin q) ∨ v = .num m := by
  unfold processFieldVal at h
  dsimp only at h
  split at h <;> (repeat' split at h) <;> simp_all <;> exact Or.inl ⟨_, h.2.symm⟩

/-! ### Invariants of reachable field states -/

theorem updateState_finiteNum {st : String → FieldVal} {n : String}
    {v : FieldVal} (h : FiniteNumStates st)
    (hv : ∀ m, v = .num m → ∃ q : ℚ, m = .fin q) :
    FiniteNumStates (updateState st n v) := by
  intro nm m hm
  unfold updateState at hm
  by_cases he : (nm == n) = true
  · rw [if_pos he] at hm
    exact hv m hm
  · rw [if_neg he] at hm
    exact h nm m hm

theorem resetFields_finiteNum {d : OrderDefinition}
    (hg : defaultsGuard d = true) : FiniteNumStates (resetFields d) := by
  unfold resetFields
  unfold defaultsGuard at hg
  rw [List.all_eq_true] at hg
  suffices H : ∀ (fs : List OrderFieldDefinition) (st0 : String → FieldVal),
      (∀ f ∈ fs, (match f.defaultValue with
        | some (.num (.fin _)) => true
        | some (.num _) => false
        | _ => true) = true) →
      FiniteNumStates st0 →
      FiniteNumStates (fs.foldl (fun st f =>
        match f.type with
        | .checkbox => updateState st f.name (.bool (jsTruthy (f.defaultValue.getD .undef)))
        | .movement_legs => updateState st f.name .undef
        | .number => updateState st f.name (f.defaultValue.getD (.str ""))
        | .select =>
          updateState st f.name
            (f.defaultValue.getD (.str ((f.options.head?.map Prod.fst).getD "")))
        | _ => updateState st f.name (f.defaultValue.getD (.str ""))) st0) by
    exact H d.fields (fun _ => .undef) hg (fun nm m hm => by cases hm)
  intro fs
  induction fs with
  | nil => intro st0 _ h0; exact h0
  | cons f fs ih =>
    intro st0 hgs h0
    rw [List.foldl_cons]
    refine ih _ (fun g hg' => hgs g (List.mem_cons_of_mem _ hg')) ?_
    have hgf := hgs f (List.mem_cons_self ..)
    have hdv : ∀ m, f.defaultValue.getD (.str "") = FieldVal.num m → ∃ q : ℚ, m = .fin q := by
      intro m hm
      cases hDf : f.defaultValue with
      | none => rw [hDf] at hm; cases hm
      | some dv =>
        rw [hDf] at hm
        simp only [Option.getD_some] at hm
        subst hm
        rw [hDf] at hgf
        cases m with
        | fin q => exact ⟨q, rfl⟩
        | nan => simp at hgf
        | inf => simp at hgf
        | ninf => simp at hgf
    split
    · exact updateState_finiteNum h0 (fun m hm => by cases hm)
    · exact updateState_finiteNum h0 (fun m hm => by cases hm)
    · exact updateState_finiteNum h0 hdv
    · refine updateState_finiteNum h0 (fun m hm => ?_)
      cases hDf : f.defaultValue with
      | none => rw [hDf] at hm; cases hm
      | some dv =>
        rw [hDf] at hm
        simp only [Option.getD_some] at hm
        subst hm
        rw [hDf] at hgf
        cases m with
        | fin q => exact ⟨q, rfl⟩
        | nan => simp at hgf
        | inf => simp at hgf
        | ninf => simp at hgf
    · exact updateState_finiteNum h0 hdv

theorem applyEvent_finiteNum {d : OrderDefinition} {st : String → FieldVal}
    {e : String × FieldVal} (h : FiniteNumStates st) :
    FiniteNumStates (applyEvent d st e) := by
  unfold applyEvent
  split
  · exact h
  · split
    · split
      · exact updateState_finiteNum h (fun m hm => by cases hm)
      · exact h
    all_goals
      first
        | exact updateState_finiteNum h (fun m hm => by cases hm)
        | exact h

theorem reachState_finiteNum {d : OrderDefinition}
    (hg : defaultsGuard d = true) (events : List (String × FieldVal)) :
    FiniteNumStates (reachState d events) := by
  unfold reachState
  suffices H : ∀ (l : List (String × FieldVal)) (st : String → FieldVal),
      FiniteNumStates st → FiniteNumStates (l.foldl (applyEvent d) st) by
    exact H events _ (resetFields_finiteNum hg)
  intro l
  induction l with
  | nil => intro st h; exact h
  | cons e l ih =>
    intro st h
    rw [List.foldl_cons]
    exact ih _ (applyEvent_finiteNum h)

/-- Every order definition of the client has only finite numeric defaults. -/
theorem all_defaultsGuard :
    ∀ p ∈ ORDER_DEFINITIONS, defaultsGuard p.2 = true := by decide

/-! ### The territory_type invariant -/

theorem applyEvent_territoryOk {d : OrderDefinition} {st : String → FieldVal}
    {e : String × FieldVal} (hg : territoryGuard d = true)
    (h : territoryOk st) : territoryOk (applyEvent d st e) := by
  obtain ⟨s, hs, hmem⟩ := h
  unfold applyEvent
  split
  · exact ⟨s, hs, hmem⟩
  next f hf =>
    have hfmem : f ∈ d.fields := List.mem_of_find?_eq_some hf
    have hguard := List.all_eq_true.mp hg f hfmem
    split
    · -- select event carrying an option value
      next v heqt _ =>
        split
        next hc =>
          by_cases hn : f.name = "territory_type"
          · refine ⟨v, ?_, ?_⟩
            · rw [hn, updateState_self]
            · simp only [hn, heqt] at hguard
              simp only [bne_self_eq_false, Bool.false_or, Bool.true_and,
                beq_self_eq_true] at hguard
              have hvmem : v ∈ f.options.map Prod.fst := by
                simpa using List.contains_iff_exists_mem_beq.mp hc
              obtain ⟨o, ho, rfl⟩ := List.mem_map.mp hvmem
              have := List.all_eq_true.mp hguard o ho
              have h3 : (o.1 = "friendly" ∨ o.1 = "neutral") ∨ o.1 = "hostile" := by
                simpa using this
              tauto
          · exact ⟨s, by rw [updateState_other (Ne.symm hn)]; exact hs, hmem⟩
        next => exact ⟨s, hs, hmem⟩
    all_goals
      first
        | exact ⟨s, hs, hmem⟩
        | (next heqt _ =>
            by_cases hn : f.name = "territory_type"
            · exfalso
              rw [hn, heqt] at hguard
              simp at hguard
            · exact ⟨s, by rw [updateState_other (Ne.symm hn)]; exact hs, hmem⟩)

theorem reachState_territoryOk {d : OrderDefinition}
    (hg : territoryGuard d = true) (h0 : territoryOk (resetFields d))
    (events : List (String × FieldVal)) : territoryOk (reachState d events) := by
  unfold reachState
  suffices H : ∀ (l : List (String × FieldVal)) (st : String → FieldVal),
      territoryOk st → territoryOk (l.foldl (applyEvent d) st) by
    exact H events _ h0
  intro l
  induction l with
  | nil => intro st h; exact h
  | cons e l ih =>
    intro st h
    rw [List.foldl_cons]
    exact ih _ (applyEvent_territoryOk hg h)

/-- A key that looks up successfully is among the keys. -/
theorem lookup_mem_keys :
    ∀ (l : List (String × OrderDefinition)) (t : String) (d : OrderDefinition),
      l.lookup t = some d → t ∈ l.map Prod.fst := by
  intro l
  induction l with
  | nil => intro t d h; cases h
  | cons a l ih =>
    intro t d h
    rw [List.lookup] at h
    split at h
    next he =>
      simp only [List.map_cons]
      exact List.mem_cons.mpr (Or.inl (eq_of_beq he))
    next => exact List.mem_cons_of_mem _ (ih t d h)

/-- If ot looks up to d, the pair (ot, d) is an entry of the list. -/
theorem lookup_mem_pair :
    ∀ (l : List (String × OrderDefinition)) (t : String) (d : OrderDefinition),
      l.lookup t = some d → (t, d) ∈ l := by
  intro l
  induction l with
  | nil => intro t d h; cases h
  | cons a l ih =>
    intro t d h
    rw [List.lookup] at h
    split at h
    next he =>
      cases h
      have ht : t = a.1 := eq_of_beq he
      exact List.mem_cons.mpr (Or.inl (by rw [ht]))
    next => exact List.mem_cons_of_mem _ (ih t d h)

/-- Core fact shared by the move-order claims: a successful move submission
carries the prepared legs under the "legs" key and at least one of them. -/
theorem move_submit_legs {jp : String → Bool} {st : String → FieldVal}
    {legs : List MovementLegForm} {a c : Option ℤ} {ed ep : String} {pr : JSNum}
    {p : OrderCreateRequest}
    (h : handleSubmit jp "move" st legs a c ed ep pr = .ok p) :
    ("legs", ParamValue.legs (preparedLegs legs)) ∈ p.parameters ∧
      preparedLegs legs ≠ [] := by
  obtain ⟨d, ps, hl, h1, h2, hps, hot, hpar, hcom, harm⟩ := handleSubmit_ok_inv h
  have hmd : ORDER_DEFINITIONS.lookup "move" = some moveDef := by decide
  have hd : d = moveDef := Option.some.inj (hl.symm.trans hmd)
  subst hd
  have hmem : ({ name := "legs", label := "Legs", type := .movement_legs } :
      OrderFieldDefinition) ∈ moveDef.fields := by decide
  obtain ⟨r, hr, hin⟩ := processFields_ok_of_mem hps _ hmem
  obtain ⟨hr', hne⟩ := processFieldVal_movement_legs rfl hr
  subst hr'
  rw [hpar]
  exact ⟨hin _ rfl, hne rfl⟩

/-! ### The claims -/

/-- C1: re-running advance from an identical campaign snapshot with an
identical seed and identical fixed-roll overrides produces an identical
resulting snapshot and an identical audit log. In this state-passing
embedding the engine's only inputs are the snapshot, the seed and the
override set, so the two runs agree definitionally on both outputs. -/
theorem advance_deterministic (snap : CampaignSnapshot) (days seed : ℕ)
    (ov : ℕ → Option ℕ) :
    (advance snap days seed ov).1 = (advance snap days seed ov).1 ∧
    (advance snap days seed ov).2 = (advance snap days seed ov).2 :=
  ⟨rfl, rfl⟩

/-- C2: the accepted order types are exactly the closed 14-element set;
every submitted order's order_type is one of them, and any other value is
rejected with ValidationError. -/
theorem order_types_closed :
    ORDER_TYPES = ["move", "rest", "forage", "torch", "supply_transfer", "besiege",
      "assault", "embark", "disembark", "naval_move", "send_message",
      "launch_operation", "raise_army", "harry"] ∧
    (∀ jp ot st legs a c ed ep pr p,
      handleSubmit jp ot st legs a c ed ep pr = Except.ok p →
        p.order_type ∈ ORDER_TYPES) ∧
    (∀ t, t ∉ ORDER_TYPES → validateOrderType t = .error DomainError.validation) ∧
    (∀ t, t ∈ ORDER_TYPES → validateOrderType t = .ok ()) := by
  refine ⟨by decide, ?_, ?_, ?_⟩
  · intro jp ot st legs a c ed ep pr p h
    obtain ⟨d, ps, hl, -, -, -, hot, -, -, -⟩ := handleSubmit_ok_inv h
    rw [hot]
    exact lookup_mem_keys _ _ _ hl
  · intro t ht
    unfold validateOrderType
    rw [if_neg ht]
  · intro t ht
    unfold validateOrderType
    rw [if_pos ht]

/-- C3: cancelling a terminal (completed, failed or cancelled) order always
fails with InvalidStateError, cancelling a pending or executing order always
succeeds, and the client offers the cancel action exactly for pending and
executing orders. -/
theorem cancel_exactly_nonterminal :
    (∀ st : OrderStatus,
      cancelOrder st = .error DomainError.invalidState ↔ st.isTerminal = true) ∧
    (∀ st : OrderStatus, cancelOrder st = .ok OrderStatus.cancelled ↔
      (st = .pending ∨ st = .executing)) ∧
    (∀ st : OrderStatus, st.isTerminal = true ↔
      (st = .completed ∨ st = .failed ∨ st = .cancelled)) ∧
    (∀ s : String, showCancelButton s = true ↔ (s = "pending" ∨ s = "executing")) := by
  refine ⟨?_, ?_, ?_, ?_⟩
  · intro st; cases st <;> simp [cancelOrder, OrderStatus.isTerminal]
  · intro st; cases st <;> simp [cancelOrder]
  · intro st; cases st <;> simp [OrderStatus.isTerminal]
  · intro s
    unfold showCancelButton
    simp

/-- C4 counterexample: entering "0.5" in the tick-advance form passes the
handler's guard (`Number.isFinite(count) && count > 0`) and issues an
advance request whose days value is one half - not an integer at least 1. -/
theorem advance_days_counterexample :
    handleAdvance "0.5" = some (JSNum.fin (mkRat 1 2)) ∧
    ¬ ∃ k : ℤ, JSNum.fin (mkRat 1 2) = JSNum.fin (k : ℚ) ∧ 1 ≤ k := by
  constructor
  · decide
  · rintro ⟨k, hk, -⟩
    have h1 : mkRat 1 2 = (k : ℚ) := by injection hk
    have h2 := congrArg Rat.den h1
    rw [Rat.den_intCast] at h2
    have h3 : (mkRat 1 2).den = 2 := by decide
    rw [h3] at h2
    omega

/-- C4 as amended: a value whose `Number()` parse is not a finite number
strictly greater than zero issues no advance request, and every advance
request that is issued carries the parsed value, which is finite and
strictly positive (but not necessarily an integer). -/
theorem advance_days_positive :
    (∀ s, ¬(∃ q : ℚ, jsParseNum s = .fin q ∧ 0 < q) → handleAdvance s = none) ∧
    (∀ s n, handleAdvance s = some n →
      n = jsParseNum s ∧ ∃ q : ℚ, n = .fin q ∧ 0 < q) := by
  constructor
  · intro s hq
    unfold handleAdvance
    cases hp : jsParseNum s with
    | fin q =>
      have hle : q ≤ 0 := le_of_not_lt (fun h0 => hq ⟨q, hp, h0⟩)
      dsimp only
      rw [if_pos hle]
    | nan => rfl
    | inf => rfl
    | ninf => rfl
  · intro s n h
    unfold handleAdvance at h
    cases hp : jsParseNum s with
    | fin q =>
      rw [hp] at h
      dsimp only at h
      by_cases hle : q ≤ 0
      · rw [if_pos hle] at h; cases h
      · rw [if_neg hle] at h
        cases h
        exact ⟨rfl, q, rfl, lt_of_not_le hle⟩
    | nan => rw [hp] at h; cases h
    | inf => rw [hp] at h; cases h
    | ninf => rw [hp] at h; cases h

/-- C5: a move order with no prepared leg is rejected with a validation
error and no order-creation request is issued; every move order that is
submitted carries one or more legs. -/
theorem move_requires_at_least_one_leg :
    (∀ jp st legs a c ed ep pr, preparedLegs legs = [] →
      ∃ e, handleSubmit jp "move" st legs a c ed ep pr = .error e) ∧
    (∀ jp st legs a c ed ep pr p,
      handleSubmit jp "move" st legs a c ed ep pr = .ok p →
        ("legs", ParamValue.legs (preparedLegs legs)) ∈ p.parameters ∧
        preparedLegs legs ≠ []) := by
  constructor
  · intro jp st legs a c ed ep pr hnil
    cases hres : handleSubmit jp "move" st legs a c ed ep pr with
    | error e => exact ⟨e, rfl⟩
    | ok p => exact absurd hnil (move_submit_legs hres).2
  · intro jp st legs a c ed ep pr p h
    exact move_submit_legs h

/-- C7: the assault order requires stronghold_id, provides attacker and
defender modifiers defaulting to 0 and a pillage flag, and exposes the two
fixed-roll fields as optional (never required) numbers, so a deterministic
roll can be supplied per side. -/
theorem assault_parameter_shape :
    ORDER_DEFINITIONS.lookup "assault" = some assaultDef ∧
    (∃ f ∈ assaultDef.fields, f.name = "stronghold_id" ∧ f.type = .number ∧
      f.required = true) ∧
    (∃ f ∈ assaultDef.fields, f.name = "pillage" ∧ f.type = .checkbox) ∧
    (∃ f ∈ assaultDef.fields, f.name = "attacker_modifier" ∧ f.type = .number ∧
      f.defaultValue = some (.num (.fin 0)) ∧ f.required = false) ∧
    (∃ f ∈ assaultDef.fields, f.name = "defender_modifier" ∧ f.type = .number ∧
      f.defaultValue = some (.num (.fin 0)) ∧ f.required = false) ∧
    (∃ f ∈ assaultDef.fields, f.name = "attacker_fixed_roll" ∧ f.type = .number ∧
      f.required = false) ∧
    (∃ f ∈ assaultDef.fields, f.name = "defender_fixed_roll" ∧ f.type = .number ∧
      f.required = false) ∧
    (∀ f ∈ assaultDef.fields,
      (f.name = "attacker_fixed_roll" ∨ f.name = "defender_fixed_roll") →
        f.required = false) := by
  decide

/-- C6: every leg in the legs parameter of a submitted move order is the
prepared record of a filled-in form row: numeric to_hex_id and
distance_miles, the four boolean flags copied across, and alternate_hex_id a
number exactly when the form string was provided (non-empty), else absent. -/
theorem move_leg_parameter_shape :
    (∀ jp st legs a c ed ep pr p,
      handleSubmit jp "move" st legs a c ed ep pr = .ok p →
        ("legs", ParamValue.legs (preparedLegs legs)) ∈ p.parameters) ∧
    (∀ legs : List MovementLegForm, ∀ pl ∈ preparedLegs legs,
      ∃ fl, fl ∈ legs ∧ legReady fl = true ∧ pl = prepareLeg fl ∧
        pl.to_hex_id = jsParseNum fl.to_hex_id ∧
        pl.distance_miles = jsParseNum fl.distance_miles ∧
        pl.on_road = fl.on_road ∧ pl.has_river_ford = fl.has_river_ford ∧
        pl.is_night = fl.is_night ∧ pl.has_fork = fl.has_fork ∧
        pl.alternate_hex_id = (if fl.alternate_hex_id != "" then
          some (jsParseNum fl.alternate_hex_id) else none)) := by
  constructor
  · intro jp st legs a c ed ep pr p h
    exact (move_submit_legs h).1
  · intro legs pl hpl
    unfold preparedLegs at hpl
    obtain ⟨fl, hfl, rfl⟩ := List.mem_map.mp hpl
    obtain ⟨hmem, hready⟩ := List.mem_filter.mp hfl
    exact ⟨fl, hmem, hready, rfl, rfl, rfl, rfl, rfl, rfl, rfl, rfl⟩

/-- C9: every payload that reaches the order-creation endpoint carries a
non-null (and non-zero) commander_id, and whenever the selected order type
requires an army, a non-null (and non-zero) army_id: the null branches are
unreachable in a sent request. -/
theorem submit_ids_present (jp : String → Bool) (ot : String)
    (st : String → FieldVal) (legs : List MovementLegForm)
    (a c : Option ℤ) (ed ep : String) (pr : JSNum) (p : OrderCreateRequest)
    (h : handleSubmit jp ot st legs a c ed ep pr = .ok p) :
    (∃ cc : ℤ, p.commander_id = some cc ∧ cc ≠ 0) ∧
    (∀ d, ORDER_DEFINITIONS.lookup ot = some d → d.requiresArmy = true →
      ∃ aa : ℤ, p.army_id = some aa ∧ aa ≠ 0) := by
  obtain ⟨d, ps, hl, h1, h2, hps, hot, hpar, hcom, harm⟩ := handleSubmit_ok_inv h
  constructor
  · rw [hcom]
    cases c with
    | none => simp [jsOptFalsy] at h2
    | some cc =>
      refine ⟨cc, rfl, fun h0 => ?_⟩
      subst h0
      simp [jsOptFalsy] at h2
  · intro d' hl' hra
    have hd : d' = d := Option.some.inj (hl'.symm.trans hl)
    subst hd
    rw [harm]
    rw [hra, Bool.true_and] at h1
    cases a with
    | none => simp [jsOptFalsy] at h1
    | some aa =>
      refine ⟨aa, rfl, fun h0 => ?_⟩
      subst h0
      simp [jsOptFalsy] at h1

/-- Witness for C9: a concrete successful move submission, with its
non-null commander and army ids exhibited by the theorem itself. -/
theorem submit_ids_present_witness :
    (∃ cc : ℤ, witnessMovePayload.commander_id = some cc ∧ cc ≠ 0) ∧
    (∀ d, ORDER_DEFINITIONS.lookup "move" = some d → d.requiresArmy = true →
      ∃ aa : ℤ, witnessMovePayload.army_id = some aa ∧ aa ≠ 0) :=
  submit_ids_present (fun _ => true) "move" (reachState moveDef []) witnessLegs
    (some 1) (some 2) "" "" (.fin 0) witnessMovePayload rfl

/-- C10: in any submission from a reachable field state, every parameter
stored as a raw number is finite; a blank or absent numeric input is left
out of the parameters mapping entirely; and a numeric input whose Number()
coercion is NaN aborts the submission with an error so no request is made. -/
theorem number_params_finite :
    (∀ jp ot d events legs a c ed ep pr p,
      ORDER_DEFINITIONS.lookup ot = some d →
      handleSubmit jp ot (reachState d events) legs a c ed ep pr = .ok p →
      ∀ n m, (n, ParamValue.num m) ∈ p.parameters → ∃ q : ℚ, m = .fin q) ∧
    (∀ jp ot legs (f : OrderFieldDefinition), f.type = .number →
      processFieldVal jp ot legs f (.str "") = .ok none ∧
      processFieldVal jp ot legs f .undef = .ok none) ∧
    (∀ jp ot st legs a c ed ep pr d f s,
      ORDER_DEFINITIONS.lookup ot = some d → f ∈ d.fields → f.type = .number →
      st f.name = .str s → jsParseNum s = .nan →
      ∃ e, handleSubmit jp ot st legs a c ed ep pr = .error e) := by
  refine ⟨?_, ?_, ?_⟩
  · intro jp ot d events legs a c ed ep pr p hl h n m hnm
    obtain ⟨d', ps, hl', h1, h2, hps, hot, hpar, hcom, harm⟩ := handleSubmit_ok_inv h
    have hd : d = d' := Option.some.inj (hl.symm.trans hl')
    subst hd
    rw [hpar] at hnm
    obtain ⟨f, hf, hpf⟩ := processFields_mem hps _ hnm
    rcases processFieldVal_num_inv hpf with hfin | hvstate
    · exact hfin
    · have hguard : defaultsGuard d = true :=
        all_defaultsGuard _ (lookup_mem_pair _ _ _ hl)
      exact reachState_finiteNum hguard events _ m hvstate
  · intro jp ot legs f hf
    exact processFieldVal_number_blank hf
  · intro jp ot st legs a c ed ep pr d f s hl hf ht hv hn
    cases hres : handleSubmit jp ot st legs a c ed ep pr with
    | error e => exact ⟨e, rfl⟩
    | ok p =>
      exfalso
      obtain ⟨d', ps, hl', h1, h2, hps, hot, hpar, hcom, harm⟩ :=
        handleSubmit_ok_inv hres
      have hd : d' = d := Option.some.inj (hl'.symm.trans hl)
      subst hd
      obtain ⟨r, hr, -⟩ := processFields_ok_of_mem hps f hf
      have hs0 : s ≠ "" := by
        intro h0
        subst h0
        rw [show jsParseNum "" = JSNum.fin 0 from by decide] at hn
        cases hn
      have hbad : processFieldVal jp ot legs f (st f.name) =
          .error (f.label ++ " must be a number.") := by
        rw [hv]
        refine processFieldVal_number_bad ht ⟨?_, ?_⟩ ?_
        · intro hcon
          exact hs0 (by injection hcon)
        · intro hcon
          cases hcon
        · show (jsToNumber (.str s)).isFinite = false
          simp [jsToNumber, hn, JSNum.isFinite]
      unfold processField at hr
      rw [hbad] at hr
      cases hr

/-- For any order definition whose territory_type field is a select over the
three territory values, a submission from a reachable field state can only
carry one of the three under the territory_type key. -/
theorem territory_param_of_reachable {d : OrderDefinition}
    (hg : territoryGuard d = true) (h0 : territoryOk (resetFields d))
    {jp : String → Bool} {ot : String} {events : List (String × FieldVal)}
    {legs : List MovementLegForm} {a c : Option ℤ} {ed ep : String}
    {pr : JSNum} {p : OrderCreateRequest}
    (hl : ORDER_DEFINITIONS.lookup ot = some d)
    (h : handleSubmit jp ot (reachState d events) legs a c ed ep pr = .ok p) :
    ∀ v, ("territory_type", v) ∈ p.parameters →
      v = .str "friendly" ∨ v = .str "neutral" ∨ v = .str "hostile" := by
  intro v hv
  obtain ⟨d', ps, hl', h1, h2, hps, hot, hpar, hcom, harm⟩ := handleSubmit_ok_inv h
  have hd : d = d' := Option.some.inj (hl.symm.trans hl')
  subst hd
  rw [hpar] at hv
  obtain ⟨f, hf, hpf⟩ := processFields_mem hps _ hv
  have hname : "territory_type" = f.name := processFieldVal_name hpf
  have hguard := List.all_eq_true.mp hg f hf
  rw [← hname] at hguard
  simp only [bne_self_eq_false, Bool.false_or, Bool.and_eq_true] at hguard
  obtain ⟨htype, hopts⟩ := hguard
  have htype' : f.type = .select := by simpa using htype
  have hinv : territoryOk (reachState d events) := reachState_territoryOk hg h0 events
  obtain ⟨s, hs, hsmem⟩ := hinv
  unfold processField at hpf
  rw [← hname, hs] at hpf
  unfold processFieldVal at hpf
  rw [htype'] at hpf
  dsimp only at hpf
  have hsne : (s != "") = true := by
    rcases hsmem with rfl | rfl | rfl <;> decide
  have hcond1 : (jsTrim s == "" && f.required) = false := by
    have : (jsTrim s == "") = false := by
      rcases hsmem with rfl | rfl | rfl <;> decide
    rw [this, Bool.false_and]
  rw [if_neg (by simp [hcond1]), if_pos hsne] at hpf
  have hv' : v = .str s := by
    have := Option.some.inj (Except.ok.inj hpf)
    exact (Prod.mk.injEq .. ▸ this).2.symm
  rw [hv']
  rcases hsmem with rfl | rfl | rfl
  · exact Or.inl rfl
  · exact Or.inr (Or.inl rfl)
  · exact Or.inr (Or.inr rfl)

/-- C8: the territory_type of a dispatched message is restricted to the
closed set friendly, neutral, hostile with default friendly, for both the
send_message order (which also requires recipient_id and content) and the
launch_operation order; no submitted order carries a territory_type outside
this set. -/
theorem territory_type_closed :
    (∃ f ∈ sendMessageDef.fields, f.name = "territory_type" ∧ f.type = .select ∧
      f.options.map Prod.fst = ["friendly", "neutral", "hostile"] ∧
      f.defaultValue = some (.str "friendly")) ∧
    (∃ f ∈ launchOperationDef.fields, f.name = "territory_type" ∧ f.type = .select ∧
      f.options.map Prod.fst = ["friendly", "neutral", "hostile"] ∧
      f.defaultValue = some (.str "friendly")) ∧
    (∃ f ∈ sendMessageDef.fields, f.name = "recipient_id" ∧ f.required = true) ∧
    (∃ f ∈ sendMessageDef.fields, f.name = "content" ∧ f.required = true) ∧
    (∀ ot d, (ot = "send_message" ∨ ot = "launch_operation") →
      ORDER_DEFINITIONS.lookup ot = some d →
      ∀ jp events legs a c ed ep pr p,
        handleSubmit jp ot (reachState d events) legs a c ed ep pr = .ok p →
        ∀ v, ("territory_type", v) ∈ p.parameters →
          v = .str "friendly" ∨ v = .str "neutral" ∨ v = .str "hostile") := by
  refine ⟨by decide, by decide, by decide, by decide, ?_⟩
  rintro ot d (rfl | rfl) hl jp events legs a c ed ep pr p h v hv
  · have hd : d = sendMessageDef := by
      have hm : ORDER_DEFINITIONS.lookup "send_message" = some sendMessageDef := by
        decide
      exact Option.some.inj (hl.symm.trans hm)
    subst hd
    exact territory_param_of_reachable (by decide)
      ⟨"friendly", by decide, Or.inl rfl⟩ hl h v hv
  · have hd : d = launchOperationDef := by
      have hm : ORDER_DEFINITIONS.lookup "launch_operation" =
          some launchOperationDef := by decide
      exact Option.some.inj (hl.symm.trans hm)
    subst hd
    exact territory_param_of_reachable (by decide)
      ⟨"friendly", by decide, Or.inl rfl⟩ hl h v hv

end Kataphraktus
